import Mathlib

/-!
Verification of the two-tap feedback echo effect (alc/effects/echo.cpp).

Floating-point samples, gains and delay times are modelled as exact
rationals; machine indices (size_t) are modelled as naturals with explicit
wraparound modulo 2^64 where the code relies on unsigned wraparound.

External collaborators that live outside the effect's own source file
(NextPowerOf2, the biquad coefficient math, the ambisonic panning
functions, the maximum-delay constants) are modelled from the spec, as
noted on each definition.
-/

namespace Echo

/-- C `float` → `unsigned int` conversion (float2uint): truncation toward
zero; all uses in the effect are on non-negative values. -/
def float2uint (x : ℚ) : ℕ := (Int.toNat ⌊x⌋)

/-- C++ std::round: round half away from zero, returning a (rational-valued)
integer, as the float-returning std::round does. -/
def roundQ (x : ℚ) : ℚ := if x < 0 then -(⌊-x + 1/2⌋ : ℤ) else ((⌊x + 1/2⌋ : ℤ) : ℚ)

/-- Search for the least exponent j ≥ k with n ≤ 2^j; the first argument
after n is fuel enough for any n (each try increases k by one). -/
def np2Aux (n : ℕ) : ℕ → ℕ → ℕ
  | 0, k => k
  | fuel + 1, k => if n ≤ 2 ^ k then k else np2Aux n fuel (k + 1)

/-- Modelled from the spec: "round up to the next power of two" — the
smallest power of two ≥ n (alnumeric.h's NextPowerOf2 is outside the
effect's source file). -/
def NextPowerOf2 (n : ℕ) : ℕ := 2 ^ np2Aux n n 0

/-- The fixed high-shelf reference frequency used by the damping filter. -/
def LowpassFreqRef : ℚ := 5000

/-- Modelled from the spec: the channel count of the ambisonic output mix
(core/ambidefs.h is outside the effect's source file); the exact value is
irrelevant to every claim. -/
def MaxAmbiChannels : ℕ := 16

/-- Per-tap panning gains: the live (ramping) vector and the target set by
the last update. -/
structure OutGains where
  Current : List ℚ
  Target : List ℚ
deriving DecidableEq, Repr

/-- Value initialization of OutGains: both vectors all zero. -/
def OutGains.init : OutGains :=
  ⟨List.replicate MaxAmbiChannels 0, List.replicate MaxAmbiChannels 0⟩

/-- The biquad damping filter, consumed as an opaque two-pole filter (the
coefficient math of core/filters/biquad.h is an external collaborator):
setParamsFromSlope stores the requested high-shelf response parameters,
and the running state is the two accumulator terms z1, z2. -/
structure BiquadFilter where
  f0norm : ℚ
  gainhf : ℚ
  slope : ℚ
  z1 : ℚ
  z2 : ℚ
deriving DecidableEq, Repr

/-- setParamsFromSlope(HighShelf, f0norm, gainhf, slope): replaces the
filter's response parameters, leaving the running state z1, z2 alone. -/
def BiquadFilter.setParamsFromSlope (f : BiquadFilter) (f0norm gainhf slope : ℚ) :
    BiquadFilter :=
  { f with f0norm := f0norm, gainhf := gainhf, slope := slope }

/-- Echo effect properties (EchoProps). -/
structure EchoProps where
  Delay : ℚ
  LRDelay : ℚ
  Damping : ℚ
  Feedback : ℚ
  Spread : ℚ
deriving DecidableEq, Repr

/-- The persistent state of the echo effect (struct EchoState). The two
temp buffer lines are per-block scratch, kept here as in the source. -/
structure EchoState where
  mSampleBuffer : List ℚ
  mDelayTap : ℕ × ℕ
  mOffset : ℕ
  mGains : OutGains × OutGains
  mFilter : BiquadFilter
  mFeedGain : ℚ
  mTempBuffer : List ℚ × List ℚ
  mOutTarget : ℕ
deriving DecidableEq, Repr

/-- EchoState::deviceUpdate. The two compile-time maximum-delay constants
(EchoMaxDelay, EchoMaxLRDelay — defined outside this source file; the spec
says to treat them as configuration) are parameters. Returns the new state
together with a flag recording whether a reallocation took place (the
taken branch of the `maxlen != size` test), so that "no reallocation
occurs" is observable in the model. -/
def EchoState.deviceUpdate (EchoMaxDelay EchoMaxLRDelay : ℚ) (sampleRate : ℕ)
    (st : EchoState) : EchoState × Bool :=
  let frequency : ℚ := (sampleRate : ℚ)
  let maxlen : ℕ := NextPowerOf2 (float2uint (EchoMaxDelay * frequency + 1/2) +
    float2uint (EchoMaxLRDelay * frequency + 1/2))
  let realloc : Bool := decide (maxlen ≠ st.mSampleBuffer.length)
  let buf : List ℚ := if realloc then List.replicate maxlen (0 : ℚ) else st.mSampleBuffer
  let buf : List ℚ := List.replicate buf.length (0 : ℚ)
  ({ st with mSampleBuffer := buf, mGains := (OutGains.init, OutGains.init) }, realloc)

/-- EchoState::update. The external pure functions (std::sqrt on floats,
CalcAmbiCoeffs, ComputePanGains — all collaborators outside this source
file) are parameters; `targetMain` is an abstract handle for the output
routing target and `slotGain` the effect slot's send gain. -/
def EchoState.update (fsqrt : ℚ → ℚ) (CalcAmbiCoeffs : ℚ → ℚ → ℚ → ℚ → List ℚ)
    (ComputePanGains : ℕ → List ℚ → ℚ → List ℚ)
    (sampleRate : ℕ) (slotGain : ℚ) (targetMain : ℕ)
    (props : EchoProps) (st : EchoState) : EchoState :=
  let frequency : ℚ := (sampleRate : ℚ)
  let tap0 : ℕ := max (float2uint (roundQ (props.Delay * frequency))) 1
  let tap1 : ℕ := float2uint (roundQ (props.LRDelay * frequency)) + tap0
  let gainhf : ℚ := max (1 - props.Damping) (1/16)
  let filter := st.mFilter.setParamsFromSlope (LowpassFreqRef / frequency) gainhf 1
  let x := props.Spread
  let z := fsqrt (1 - x * x)
  let coeffs0 := CalcAmbiCoeffs x 0 z 0
  let coeffs1 := CalcAmbiCoeffs (-x) 0 z 0
  { st with
    mDelayTap := (tap0, tap1)
    mFilter := filter
    mFeedGain := props.Feedback
    mOutTarget := targetMain
    mGains := ({ st.mGains.1 with Target := ComputePanGains targetMain coeffs0 slotGain },
               { st.mGains.2 with Target := ComputePanGains targetMain coeffs1 slotGain }) }

/-- size_t subtraction: unsigned wraparound modulo 2^64 (the tap read
positions are computed as cursor − offset on size_t). -/
def usub (a b : ℕ) : ℕ := (a + (2 ^ 64 - b % 2 ^ 64)) % 2 ^ 64

/-- The mutable data threaded through the processing loop apart from the
three indices: the delay buffer, the two temporary tap output lines, and
the damping filter's running state (abstract type S, carried explicitly
across the block). `ok` is instrumentation only: it records that every
delay-buffer access so far was in bounds. -/
structure LoopState (S : Type) where
  buf : List ℚ
  tmp0 : List ℚ
  tmp1 : List ℚ
  z : S
  ok : Bool
deriving DecidableEq

/-- One sample of the processing loop body, at raw indices o (write
cursor), t1, t2 (tap read positions) and block position i:
write the input sample at o, read both taps into the temp lines, pass the
second tap through the damping filter and accumulate it (scaled by the
feedback gain) into the buffer at o. `pf` is the opaque
process-one-sample filter operation with explicit state. -/
def sampleBody {S : Type} (pf : ℚ → S → ℚ × S) (feedGain : ℚ) (inp : List ℚ)
    (s : LoopState S) (o t1 t2 i : ℕ) : LoopState S :=
  let ok := s.ok && decide (o < s.buf.length) && decide (t1 < s.buf.length) &&
    decide (t2 < s.buf.length)
  let buf := s.buf.set o (inp.getD i 0)
  let v1 := buf.getD t1 0
  let v2 := buf.getD t2 0
  let tmp0 := s.tmp0.set i v1
  let tmp1 := s.tmp1.set i v2
  let r := pf v2 s.z
  let buf2 := buf.set o (buf.getD o 0 + r.1 * feedGain)
  ⟨buf2, tmp0, tmp1, r.2, ok⟩

/-- The unmasked inner do-while loop: run `td` samples, incrementing the
three indices and the block position without masking. Returns the state
and the four advanced counters. -/
def innerLoop {S : Type} (pf : ℚ → S → ℚ × S) (feedGain : ℚ) (inp : List ℚ)
    (s : LoopState S) (o t1 t2 i : ℕ) : ℕ → LoopState S × ℕ × ℕ × ℕ × ℕ
  | 0 => (s, o, t1, t2, i)
  | td + 1 =>
    innerLoop pf feedGain inp (sampleBody pf feedGain inp s o t1 t2 i)
      (o + 1) (t1 + 1) (t2 + 1) (i + 1) td

/-- The sub-chunked outer loop of EchoState::process: while i < n, mask
all three indices with N−1, take td = min(N − max index, n − i) samples
unmasked, repeat. `fuel` bounds the number of outer iterations; since
every iteration with 0 < N processes at least one sample, fuel = n is
exact for the source loop. Returns the state and the four counters as
they stand at loop exit (the cursor is stored back unmasked, as in the
source). -/
def outerLoop {S : Type} (pf : ℚ → S → ℚ × S) (feedGain : ℚ) (inp : List ℚ)
    (N n : ℕ) : ℕ → LoopState S → ℕ → ℕ → ℕ → ℕ → LoopState S × ℕ × ℕ × ℕ × ℕ
  | 0, s, o, t1, t2, i => (s, o, t1, t2, i)
  | fuel + 1, s, o, t1, t2, i =>
    if i < n then
      let o' := o &&& (N - 1)
      let t1' := t1 &&& (N - 1)
      let t2' := t2 &&& (N - 1)
      let maxo := max o' (max t1' t2')
      let td := min (N - maxo) (n - i)
      let r := innerLoop pf feedGain inp s o' t1' t2' i td
      outerLoop pf feedGain inp N n fuel r.1 r.2.1 r.2.2.1 r.2.2.2.1 r.2.2.2.2
    else (s, o, t1, t2, i)

/-- The naive reference loop: same per-sample body, but every index is
masked with N−1 on every sample. -/
def naiveLoop {S : Type} (pf : ℚ → S → ℚ × S) (feedGain : ℚ) (inp : List ℚ)
    (N : ℕ) : LoopState S → ℕ → ℕ → ℕ → ℕ → ℕ → LoopState S × ℕ × ℕ × ℕ × ℕ
  | s, o, t1, t2, i, 0 => (s, o, t1, t2, i)
  | s, o, t1, t2, i, k + 1 =>
    let o' := o &&& (N - 1)
    let t1' := t1 &&& (N - 1)
    let t2' := t2 &&& (N - 1)
    let s' := sampleBody pf feedGain inp s o' t1' t2' i
    naiveLoop pf feedGain inp N s' (o' + 1) (t1' + 1) (t2' + 1) (i + 1) k

/-- EchoState::process: set up the three indices from the stored cursor
and the two tap offsets (size_t wraparound), run the sub-chunked loop
over the whole block with the filter state read at entry, and store back
the filter state and the (unmasked) cursor. Output mixing into the shared
bus (MixSamples, an external collaborator) happens after this and does
not touch the modelled state, so it is not part of the model. `procOne`
is the opaque biquad process-one-sample operation. -/
def EchoState.process (procOne : BiquadFilter → ℚ → (ℚ × ℚ) → ℚ × (ℚ × ℚ))
    (samplesToDo : ℕ) (samplesIn : List ℚ) (st : EchoState) : EchoState :=
  let N := st.mSampleBuffer.length
  let offset := st.mOffset
  let tap1 := usub offset st.mDelayTap.1
  let tap2 := usub offset st.mDelayTap.2
  let filter := st.mFilter
  let s0 : LoopState (ℚ × ℚ) :=
    ⟨st.mSampleBuffer, st.mTempBuffer.1, st.mTempBuffer.2, (filter.z1, filter.z2), true⟩
  let r := outerLoop (procOne filter) st.mFeedGain samplesIn N samplesToDo samplesToDo
    s0 offset tap1 tap2 0
  { st with
    mSampleBuffer := r.1.buf
    mTempBuffer := (r.1.tmp0, r.1.tmp1)
    mFilter := { st.mFilter with z1 := r.1.z.1, z2 := r.1.z.2 }
    mOffset := r.2.1 }

/-- A concrete echo state with the given delay buffer, tap offsets and
write cursor; used to exercise the model on explicit inputs. -/
def exState (buf : List ℚ) (taps : ℕ × ℕ) (off : ℕ) : EchoState :=
  ⟨buf, taps, off, (OutGains.init, OutGains.init), ⟨0, 0, 0, 0, 0⟩, 0, ([0, 0], [0, 0]), 0⟩

/-! ### Helper lemmas: NextPowerOf2 is the least power of two ≥ n -/

lemma np2Aux_le {n p : ℕ} (hp : n ≤ 2 ^ p) : ∀ (fuel k : ℕ), k ≤ p → np2Aux n fuel k ≤ p
  | 0, k, hk => hk
  | fuel + 1, k, hk => by
    rw [np2Aux]
    split
    · exact hk
    · next h =>
      refine np2Aux_le hp fuel (k + 1) ?_
      have hkp : 2 ^ k < 2 ^ p := lt_of_lt_of_le (by omega) hp
      have hlt := (Nat.pow_lt_pow_iff_right (by norm_num : 1 < 2)).1 hkp
      omega

lemma np2Aux_ge (n : ℕ) : ∀ (fuel k : ℕ), n ≤ 2 ^ (k + fuel) → n ≤ 2 ^ np2Aux n fuel k
  | 0, k, h => by rw [np2Aux]; simpa using h
  | fuel + 1, k, h => by
    rw [np2Aux]
    split
    · next hle => exact hle
    · next hgt =>
      refine np2Aux_ge n fuel (k + 1) ?_
      have hidx : k + 1 + fuel = k + (fuel + 1) := by omega
      rw [hidx]
      exact h

lemma NextPowerOf2_ge (n : ℕ) : n ≤ NextPowerOf2 n := by
  rw [NextPowerOf2]
  refine np2Aux_ge n n 0 ?_
  simpa using (Nat.lt_two_pow n).le

lemma NextPowerOf2_min {n p : ℕ} (hp : n ≤ 2 ^ p) : NextPowerOf2 n ≤ 2 ^ p := by
  rw [NextPowerOf2]
  exact Nat.pow_le_pow_right (by norm_num) (np2Aux_le hp n 0 (Nat.zero_le p))

/-! ### Helper lemmas: deviceUpdate and update -/

lemma deviceUpdate_length (D LR : ℚ) (r : ℕ) (st : EchoState) :
    ((EchoState.deviceUpdate D LR r st).1).mSampleBuffer.length =
      NextPowerOf2 (float2uint (D * (r : ℚ) + 1 / 2) + float2uint (LR * (r : ℚ) + 1 / 2)) := by
  simp only [EchoState.deviceUpdate, List.length_replicate]
  split
  · simp
  · next h =>
    simp only [decide_eq_true_eq, ne_eq, not_not] at h
    omega

lemma update_delayTap (fsqrt : ℚ → ℚ) (CalcAmbiCoeffs : ℚ → ℚ → ℚ → ℚ → List ℚ)
    (ComputePanGains : ℕ → List ℚ → ℚ → List ℚ) (sampleRate : ℕ) (slotGain : ℚ)
    (targetMain : ℕ) (props : EchoProps) (st : EchoState) :
    (EchoState.update fsqrt CalcAmbiCoeffs ComputePanGains sampleRate slotGain targetMain
        props st).mDelayTap =
      (max (float2uint (roundQ (props.Delay * (sampleRate : ℚ)))) 1,
        float2uint (roundQ (props.LRDelay * (sampleRate : ℚ))) +
          max (float2uint (roundQ (props.Delay * (sampleRate : ℚ)))) 1) := rfl

lemma float2uint_roundQ (x : ℚ) (hx : 0 ≤ x) :
    float2uint (roundQ x) = (round x).toNat := by
  rw [roundQ, if_neg (not_lt.2 hx), float2uint, Int.floor_intCast, round_eq]

/-! ### Helper lemmas about the processing loops -/

lemma land_eq_mod (x m : ℕ) : x &&& (2 ^ m - 1) = x % 2 ^ m :=
  Nat.and_pow_two_sub_one_eq_mod x m

lemma innerLoop_counters {S : Type} (pf : ℚ → S → ℚ × S) (g : ℚ) (inp : List ℚ) :
    ∀ (td : ℕ) (s : LoopState S) (o t1 t2 i : ℕ),
      (innerLoop pf g inp s o t1 t2 i td).2 = (o + td, t1 + td, t2 + td, i + td)
  | 0, s, o, t1, t2, i => by simp [innerLoop]
  | td + 1, s, o, t1, t2, i => by
    rw [innerLoop, innerLoop_counters pf g inp td]
    simp only [Prod.mk.injEq]
    omega

lemma naiveLoop_append {S : Type} (pf : ℚ → S → ℚ × S) (g : ℚ) (inp : List ℚ) (N : ℕ) :
    ∀ (a b : ℕ) (s : LoopState S) (o t1 t2 i : ℕ),
      naiveLoop pf g inp N s o t1 t2 i (a + b) =
        (fun r : LoopState S × ℕ × ℕ × ℕ × ℕ =>
          naiveLoop pf g inp N r.1 r.2.1 r.2.2.1 r.2.2.2.1 r.2.2.2.2 b)
          (naiveLoop pf g inp N s o t1 t2 i a)
  | 0, b, s, o, t1, t2, i => by simp [naiveLoop]
  | a + 1, b, s, o, t1, t2, i => by
    have hidx : a + 1 + b = (a + b) + 1 := by omega
    rw [hidx]
    simp only [naiveLoop]
    exact naiveLoop_append pf g inp N a b _ _ _ _ _

lemma innerLoop_eq_naive {S : Type} (pf : ℚ → S → ℚ × S) (g : ℚ) (inp : List ℚ) (m : ℕ) :
    ∀ (td : ℕ) (s : LoopState S) (o t1 t2 i : ℕ),
      o + td ≤ 2 ^ m → t1 + td ≤ 2 ^ m → t2 + td ≤ 2 ^ m →
      innerLoop pf g inp s o t1 t2 i td = naiveLoop pf g inp (2 ^ m) s o t1 t2 i td
  | 0, _, _, _, _, _, _, _, _ => rfl
  | td + 1, s, o, t1, t2, i, h1, h2, h3 => by
    have ho : o % 2 ^ m = o := Nat.mod_eq_of_lt (by omega)
    have ht1 : t1 % 2 ^ m = t1 := Nat.mod_eq_of_lt (by omega)
    have ht2 : t2 % 2 ^ m = t2 := Nat.mod_eq_of_lt (by omega)
    simp only [innerLoop, naiveLoop, land_eq_mod, ho, ht1, ht2]
    exact innerLoop_eq_naive pf g inp m td _ _ _ _ _ (by omega) (by omega) (by omega)

lemma naiveLoop_mask_start {S : Type} (pf : ℚ → S → ℚ × S) (g : ℚ) (inp : List ℚ)
    (m : ℕ) (s : LoopState S) (o t1 t2 i k : ℕ) :
    naiveLoop pf g inp (2 ^ m) s o t1 t2 i (k + 1) =
      naiveLoop pf g inp (2 ^ m) s (o % 2 ^ m) (t1 % 2 ^ m) (t2 % 2 ^ m) i (k + 1) := by
  have hmm : ∀ x : ℕ, x % 2 ^ m % 2 ^ m = x % 2 ^ m := fun x =>
    Nat.mod_mod_of_dvd x (dvd_refl _)
  simp only [naiveLoop, land_eq_mod, hmm]

lemma naiveLoop_chunk {S : Type} (pf : ℚ → S → ℚ × S) (g : ℚ) (inp : List ℚ)
    (m : ℕ) (s : LoopState S) (o t1 t2 i td k : ℕ) (htd : 1 ≤ td)
    (hbo : o % 2 ^ m + td ≤ 2 ^ m) (hb1 : t1 % 2 ^ m + td ≤ 2 ^ m)
    (hb2 : t2 % 2 ^ m + td ≤ 2 ^ m) :
    naiveLoop pf g inp (2 ^ m) s o t1 t2 i (td + k) =
      (fun r : LoopState S × ℕ × ℕ × ℕ × ℕ =>
        naiveLoop pf g inp (2 ^ m) r.1 r.2.1 r.2.2.1 r.2.2.2.1 r.2.2.2.2 k)
        (innerLoop pf g inp s (o % 2 ^ m) (t1 % 2 ^ m) (t2 % 2 ^ m) i td) := by
  rw [naiveLoop_append]
  obtain ⟨td', rfl⟩ : ∃ td', td = td' + 1 := ⟨td - 1, by omega⟩
  rw [naiveLoop_mask_start]
  rw [← innerLoop_eq_naive pf g inp m _ _ _ _ _ _ hbo hb1 hb2]

lemma outerLoop_exit {S : Type} (pf : ℚ → S → ℚ × S) (g : ℚ) (inp : List ℚ)
    (N n : ℕ) (s : LoopState S) (o t1 t2 i : ℕ) (h : ¬ i < n) :
    ∀ fuel, outerLoop pf g inp N n fuel s o t1 t2 i = (s, o, t1, t2, i)
  | 0 => rfl
  | fuel + 1 => by rw [outerLoop, if_neg h]

lemma outerLoop_eq_naive {S : Type} (pf : ℚ → S → ℚ × S) (g : ℚ) (inp : List ℚ)
    (m n : ℕ) :
    ∀ (fuel : ℕ) (s : LoopState S) (o t1 t2 i : ℕ), n ≤ i + fuel →
      outerLoop pf g inp (2 ^ m) n fuel s o t1 t2 i =
        naiveLoop pf g inp (2 ^ m) s o t1 t2 i (n - i)
  | 0, s, o, t1, t2, i, h => by
    have h0 : n - i = 0 := by omega
    rw [h0]
    rfl
  | fuel + 1, s, o, t1, t2, i, h => by
    by_cases hi : i < n
    · have hN : (0 : ℕ) < 2 ^ m := pow_pos (by norm_num) m
      have ho : o % 2 ^ m < 2 ^ m := Nat.mod_lt _ hN
      have ht1 : t1 % 2 ^ m < 2 ^ m := Nat.mod_lt _ hN
      have ht2 : t2 % 2 ^ m < 2 ^ m := Nat.mod_lt _ hN
      rw [outerLoop, if_pos hi]
      simp only [land_eq_mod]
      set MX := max (o % 2 ^ m) (max (t1 % 2 ^ m) (t2 % 2 ^ m)) with hMX
      set TD := min (2 ^ m - MX) (n - i) with hTD
      have hmax : MX < 2 ^ m := by
        rw [hMX]
        exact max_lt ho (max_lt ht1 ht2)
      have htd1 : 1 ≤ TD := by
        rw [hTD]
        refine le_min (by omega) (by omega)
      have htd2 : TD ≤ n - i := min_le_right _ _
      have htdm : TD ≤ 2 ^ m - MX := min_le_left _ _
      have hmo : o % 2 ^ m ≤ MX := by rw [hMX]; exact le_max_left _ _
      have hm1 : t1 % 2 ^ m ≤ MX := by
        rw [hMX]; exact le_max_of_le_right (le_max_left _ _)
      have hm2 : t2 % 2 ^ m ≤ MX := by
        rw [hMX]; exact le_max_of_le_right (le_max_right _ _)
      have hbo : o % 2 ^ m + TD ≤ 2 ^ m := by omega
      have hb1 : t1 % 2 ^ m + TD ≤ 2 ^ m := by omega
      have hb2 : t2 % 2 ^ m + TD ≤ 2 ^ m := by omega
      have hcnt := innerLoop_counters pf g inp TD s (o % 2 ^ m) (t1 % 2 ^ m) (t2 % 2 ^ m) i
      simp only [hcnt]
      rw [outerLoop_eq_naive pf g inp m n fuel _ _ _ _ _ (by omega)]
      have hsplit : n - i = TD + (n - i - TD) := by omega
      rw [hsplit, naiveLoop_chunk pf g inp m s o t1 t2 i TD (n - i - TD) htd1 hbo hb1 hb2]
      simp only [hcnt]
      have hrest : n - (i + TD) = n - i - TD := by omega
      rw [hrest]
    · rw [outerLoop_exit pf g inp (2 ^ m) n s o t1 t2 i hi]
      have h0 : n - i = 0 := by omega
      rw [h0]
      rfl

lemma naiveLoop_ok {S : Type} (pf : ℚ → S → ℚ × S) (g : ℚ) (inp : List ℚ) (N : ℕ)
    (hN : 0 < N) :
    ∀ (k : ℕ) (s : LoopState S) (o t1 t2 i : ℕ), s.ok = true → s.buf.length = N →
      (naiveLoop pf g inp N s o t1 t2 i k).1.ok = true ∧
        (naiveLoop pf g inp N s o t1 t2 i k).1.buf.length = N
  | 0, _, _, _, _, _, hok, hlen => ⟨hok, hlen⟩
  | k + 1, s, o, t1, t2, i, hok, hlen => by
    have hm : ∀ x : ℕ, x &&& (N - 1) < N := fun x =>
      lt_of_le_of_lt Nat.and_le_right (by omega)
    simp only [naiveLoop]
    exact naiveLoop_ok pf g inp N hN k _ _ _ _ _
      (by simp [sampleBody, hok, hlen, hm]) (by simp [sampleBody, hlen])

lemma outerLoop_offset_le {S : Type} (pf : ℚ → S → ℚ × S) (g : ℚ) (inp : List ℚ)
    (N n : ℕ) (hN : 0 < N) :
    ∀ (fuel : ℕ) (s : LoopState S) (o t1 t2 i : ℕ), i < n → n ≤ i + fuel →
      (outerLoop pf g inp N n fuel s o t1 t2 i).2.1 ≤ N
  | 0, _, _, _, _, _, hi, hf => absurd hi (by omega)
  | fuel + 1, s, o, t1, t2, i, hi, hf => by
    rw [outerLoop, if_pos hi]
    have hm : ∀ x : ℕ, x &&& (N - 1) ≤ N - 1 := fun x => Nat.and_le_right
    simp only []
    set MX := max (o &&& (N - 1)) (max (t1 &&& (N - 1)) (t2 &&& (N - 1))) with hMX
    set TD := min (N - MX) (n - i) with hTD
    have hmax : MX ≤ N - 1 := by
      rw [hMX]
      exact max_le (hm o) (max_le (hm t1) (hm t2))
    have htd1 : 1 ≤ TD := by
      rw [hTD]
      refine le_min (by omega) (by omega)
    have htdm : TD ≤ N - MX := min_le_left _ _
    have hmo : o &&& (N - 1) ≤ MX := by rw [hMX]; exact le_max_left _ _
    have hcnt := innerLoop_counters pf g inp TD s (o &&& (N - 1)) (t1 &&& (N - 1))
      (t2 &&& (N - 1)) i
    simp only [hcnt]
    by_cases hi2 : i + TD < n
    · exact outerLoop_offset_le pf g inp N n hN fuel _ _ _ _ _ hi2 (by omega)
    · rw [outerLoop_exit pf g inp N n _ _ _ _ _ hi2]
      simp only []
      omega

/-! ### Claims -/

/-- C1 counterexample: with maxDelay = maxSpreadDelay = 41/10 seconds at sample
rate 1, deviceUpdate gives a buffer of length 8, yet the sum of the two
ceiling sample counts is 10 > 8, so the length is not the smallest power of
two ≥ that ceiling sum: the code rounds half-up instead of taking ceilings. -/
theorem C1_counterexample :
    ((EchoState.deviceUpdate (41 / 10) (41 / 10) 1
          (exState [] (0, 0) 0)).1).mSampleBuffer.length = 8 ∧
      ⌈(41 / 10 : ℚ) * ((1 : ℕ) : ℚ)⌉.toNat + ⌈(41 / 10 : ℚ) * ((1 : ℕ) : ℚ)⌉.toNat = 10 ∧
      ¬(10 : ℕ) ≤ 8 := by with_unfolding_all decide

/-- C1 (amended): for every sample rate and any maximum-delay configuration,
after deviceUpdate the delay buffer's length is the smallest power of two ≥
round(maxDelay·rate) + round(maxSpreadDelay·rate), the sum of the two
round-to-nearest (half-up) maximum-delay sample counts (the spec's ceilings
replaced by the rounding the code performs). -/
theorem C1_buffer_length_least_pow2 (EchoMaxDelay EchoMaxLRDelay : ℚ) (rate : ℕ)
    (st : EchoState) :
    (∃ k, ((EchoState.deviceUpdate EchoMaxDelay EchoMaxLRDelay rate
        st).1).mSampleBuffer.length = 2 ^ k) ∧
      (round (EchoMaxDelay * (rate : ℚ))).toNat + (round (EchoMaxLRDelay * (rate : ℚ))).toNat ≤
        ((EchoState.deviceUpdate EchoMaxDelay EchoMaxLRDelay rate
          st).1).mSampleBuffer.length ∧
      ∀ p : ℕ,
        (round (EchoMaxDelay * (rate : ℚ))).toNat + (round (EchoMaxLRDelay * (rate : ℚ))).toNat
            ≤ 2 ^ p →
          ((EchoState.deviceUpdate EchoMaxDelay EchoMaxLRDelay rate
            st).1).mSampleBuffer.length ≤ 2 ^ p := by
  have hrd : float2uint (EchoMaxDelay * (rate : ℚ) + 1 / 2) =
      (round (EchoMaxDelay * (rate : ℚ))).toNat := by rw [float2uint, round_eq]
  have hrl : float2uint (EchoMaxLRDelay * (rate : ℚ) + 1 / 2) =
      (round (EchoMaxLRDelay * (rate : ℚ))).toNat := by rw [float2uint, round_eq]
  rw [deviceUpdate_length, hrd, hrl]
  exact ⟨⟨_, rfl⟩, NextPowerOf2_ge _, fun p hp => NextPowerOf2_min hp⟩

/-- C1 witness: an application of the amended C1 at maxDelay = maxSpread = 1,
rate 3 (required count 3 + 3 = 6 ≤ 2^3), giving buffer length ≤ 8. -/
theorem C1_witness :
    ((EchoState.deviceUpdate 1 1 3 (exState [] (0, 0) 0)).1).mSampleBuffer.length ≤ 2 ^ 3 :=
  (C1_buffer_length_least_pow2 1 1 3 (exState [] (0, 0) 0)).2.2 3 (by with_unfolding_all decide)

/-- C2 counterexample: at Delay = 0 and LRDelay = 0 — a valid, non-negative
delay-time pair — update gives tap1Offset = tap0Offset = 1, violating the
claimed strict inequality tap1Offset > tap0Offset. -/
theorem C2_counterexample :
    (EchoState.update (fun _ => 0) (fun _ _ _ _ => []) (fun _ _ _ => []) 44100 1 0
        ⟨0, 0, 0, 0, 0⟩ (exState [] (0, 0) 0)).mDelayTap.2 =
      (EchoState.update (fun _ => 0) (fun _ _ _ _ => []) (fun _ _ _ => []) 44100 1 0
        ⟨0, 0, 0, 0, 0⟩ (exState [] (0, 0) 0)).mDelayTap.1 ∧
      (EchoState.update (fun _ => 0) (fun _ _ _ _ => []) (fun _ _ _ => []) 44100 1 0
        ⟨0, 0, 0, 0, 0⟩ (exState [] (0, 0) 0)).mDelayTap.1 = 1 := by with_unfolding_all decide

/-- C2 (amended): for all valid (non-negative) delay-time pairs, after update
the tap offsets satisfy tap1Offset ≥ tap0Offset ≥ 1 — non-strict order: a
spread delay that rounds to zero samples makes the two offsets equal. -/
theorem C2_tap_order (fsqrt : ℚ → ℚ) (CalcAmbiCoeffs : ℚ → ℚ → ℚ → ℚ → List ℚ)
    (ComputePanGains : ℕ → List ℚ → ℚ → List ℚ) (sampleRate : ℕ) (slotGain : ℚ)
    (targetMain : ℕ) (props : EchoProps) (st : EchoState)
    (hd : 0 ≤ props.Delay) (hlr : 0 ≤ props.LRDelay) :
    1 ≤ (EchoState.update fsqrt CalcAmbiCoeffs ComputePanGains sampleRate slotGain
        targetMain props st).mDelayTap.1 ∧
      (EchoState.update fsqrt CalcAmbiCoeffs ComputePanGains sampleRate slotGain
          targetMain props st).mDelayTap.1 ≤
        (EchoState.update fsqrt CalcAmbiCoeffs ComputePanGains sampleRate slotGain
          targetMain props st).mDelayTap.2 := by
  rw [update_delayTap]
  exact ⟨Nat.le_max_right _ _, Nat.le_add_left _ _⟩

/-- C2 witness: the amended tap-offset order at Delay = 1/10, LRDelay = 2/10,
rate 10 (offsets 1 and 3). -/
theorem C2_witness :
    1 ≤ (EchoState.update (fun _ => 0) (fun _ _ _ _ => []) (fun _ _ _ => []) 10 1 0
        ⟨1 / 10, 2 / 10, 0, 0, 0⟩ (exState [] (0, 0) 0)).mDelayTap.1 ∧
      (EchoState.update (fun _ => 0) (fun _ _ _ _ => []) (fun _ _ _ => []) 10 1 0
          ⟨1 / 10, 2 / 10, 0, 0, 0⟩ (exState [] (0, 0) 0)).mDelayTap.1 ≤
        (EchoState.update (fun _ => 0) (fun _ _ _ _ => []) (fun _ _ _ => []) 10 1 0
          ⟨1 / 10, 2 / 10, 0, 0, 0⟩ (exState [] (0, 0) 0)).mDelayTap.2 :=
  C2_tap_order _ _ _ 10 1 0 ⟨1 / 10, 2 / 10, 0, 0, 0⟩ _ (by norm_num) (by norm_num)

/-- C3 counterexample: with maxDelay = maxSpread = 1 at rate 3 the required
length is 8; on a state whose buffer already has length 8 but holds ones,
deviceUpdate performs no reallocation and yet the buffer contents change
(they are zero-filled), refuting "history left unchanged". -/
theorem C3_counterexample :
    (EchoState.deviceUpdate 1 1 3 (exState (List.replicate 8 1) (0, 0) 0)).2 = false ∧
      ((EchoState.deviceUpdate 1 1 3
          (exState (List.replicate 8 1) (0, 0) 0)).1).mSampleBuffer ≠
        (exState (List.replicate 8 1) (0, 0) 0).mSampleBuffer := by with_unfolding_all decide

/-- C3 (amended): if the computed required length equals the current buffer
length, deviceUpdate performs no reallocation, but it still zero-fills the
buffer: the accumulated echo history is discarded, not preserved. -/
theorem C3_no_realloc_still_zeroes (D LR : ℚ) (rate : ℕ) (st : EchoState)
    (h : NextPowerOf2 (float2uint (D * (rate : ℚ) + 1 / 2) +
        float2uint (LR * (rate : ℚ) + 1 / 2)) = st.mSampleBuffer.length) :
    (EchoState.deviceUpdate D LR rate st).2 = false ∧
      ((EchoState.deviceUpdate D LR rate st).1).mSampleBuffer =
        List.replicate st.mSampleBuffer.length (0 : ℚ) := by
  constructor
  · simp only [EchoState.deviceUpdate, h]
    simp
  · simp only [EchoState.deviceUpdate, h]
    simp

/-- C3 witness: the amended C3 at the concrete no-reallocation input of the
counterexample. -/
theorem C3_witness :
    (EchoState.deviceUpdate 1 1 3 (exState (List.replicate 8 1) (0, 0) 0)).2 = false ∧
      ((EchoState.deviceUpdate 1 1 3
          (exState (List.replicate 8 1) (0, 0) 0)).1).mSampleBuffer =
        List.replicate (exState (List.replicate 8 1) (0, 0) 0).mSampleBuffer.length (0 : ℚ) :=
  C3_no_realloc_still_zeroes 1 1 3 _ (by with_unfolding_all decide)

/-- C4 counterexample: a Process call on a length-4 buffer with write cursor
2, both tap offsets 2 and a 2-sample block ends with the stored write cursor
equal to 4 = N, outside the claimed range [0, N): indices are re-masked only
at sub-chunk boundaries, and the cursor is stored back unmasked. -/
theorem C4_counterexample :
    (EchoState.process (fun _ x z => (x, z)) 2 [0, 0]
        (exState [0, 0, 0, 0] (2, 2) 2)).mOffset = 4 ∧
      ¬(EchoState.process (fun _ x z => (x, z)) 2 [0, 0]
          (exState [0, 0, 0, 0] (2, 2) 2)).mOffset < 4 := by
  with_unfolding_all decide

/-- C4 (amended): over a power-of-two buffer of length N = 2^m, every
delay-buffer access made by the processing loop (write cursor, tap 0 and
tap 1 read positions) is in bounds — the instrumented in-bounds flag stays
true — and the write cursor stored back at the end of the block lies in
[0, N]; it may equal N transiently (congruent to 0 mod N) because indices
are re-masked only at sub-chunk boundaries, not after every increment. -/
theorem C4_access_bounds {S : Type} (pf : ℚ → S → ℚ × S) (g : ℚ) (inp : List ℚ)
    (m n : ℕ) (s : LoopState S) (o t1 t2 : ℕ) (hn : 0 < n) (hok : s.ok = true)
    (hlen : s.buf.length = 2 ^ m) :
    (outerLoop pf g inp (2 ^ m) n n s o t1 t2 0).1.ok = true ∧
      (outerLoop pf g inp (2 ^ m) n n s o t1 t2 0).2.1 ≤ 2 ^ m := by
  constructor
  · rw [outerLoop_eq_naive pf g inp m n n s o t1 t2 0 (by omega)]
    exact (naiveLoop_ok pf g inp (2 ^ m) (pow_pos (by norm_num) m) (n - 0) s o t1 t2 0 hok
      hlen).1
  · exact outerLoop_offset_le pf g inp (2 ^ m) n (pow_pos (by norm_num) m) n s o t1 t2 0 hn
      (by omega)

/-- C4 witness: the amended bounds at a concrete 2-sample block on a
length-4 buffer. -/
theorem C4_witness :
    (outerLoop (fun (x : ℚ) (z : ℚ) => (x, z)) 0 [0, 0] (2 ^ 2) 2 2
        ⟨[0, 0, 0, 0], [0, 0], [0, 0], 0, true⟩ 2 0 0 0).1.ok = true ∧
      (outerLoop (fun (x : ℚ) (z : ℚ) => (x, z)) 0 [0, 0] (2 ^ 2) 2 2
          ⟨[0, 0, 0, 0], [0, 0], [0, 0], 0, true⟩ 2 0 0 0).2.1 ≤ 2 ^ 2 :=
  C4_access_bounds (fun x z => (x, z)) 0 [0, 0] 2 2 ⟨[0, 0, 0, 0], [0, 0], [0, 0], 0, true⟩
    2 0 0 (by norm_num) rfl rfl

/-- C5: for every block size n > 0 and every starting state, the sub-chunked
loop — masking only at sub-chunk boundaries and processing
min(distance-to-wrap, remaining) samples unmasked — produces exactly the
same delay buffer, temporary tap output streams and final filter state as
the naive reference loop that masks every index with N−1 on every sample,
and the same final write cursor modulo N (N = 2^m). -/
theorem C5_subchunked_eq_naive {S : Type} (pf : ℚ → S → ℚ × S) (g : ℚ) (inp : List ℚ)
    (m n : ℕ) (s : LoopState S) (o t1 t2 : ℕ) (hn : 0 < n) :
    (outerLoop pf g inp (2 ^ m) n n s o t1 t2 0).1 =
        (naiveLoop pf g inp (2 ^ m) s o t1 t2 0 n).1 ∧
      (outerLoop pf g inp (2 ^ m) n n s o t1 t2 0).2.1 % 2 ^ m =
        (naiveLoop pf g inp (2 ^ m) s o t1 t2 0 n).2.1 % 2 ^ m := by
  have h := outerLoop_eq_naive pf g inp m n n s o t1 t2 0 (by omega)
  rw [Nat.sub_zero] at h
  rw [h]
  exact ⟨rfl, rfl⟩

/-- C5 witness: the loop equivalence at a concrete 2-sample block on a
length-2 buffer with nonzero input and feedback gain 1/2. -/
theorem C5_witness :
    (outerLoop (fun (x : ℚ) (u : Unit) => (x, u)) (1 / 2) [1, 0] (2 ^ 1) 2 2
        ⟨[0, 0], [0, 0], [0, 0], (), true⟩ 0 1 1 0).1 =
        (naiveLoop (fun (x : ℚ) (u : Unit) => (x, u)) (1 / 2) [1, 0] (2 ^ 1)
          ⟨[0, 0], [0, 0], [0, 0], (), true⟩ 0 1 1 0 2).1 ∧
      (outerLoop (fun (x : ℚ) (u : Unit) => (x, u)) (1 / 2) [1, 0] (2 ^ 1) 2 2
          ⟨[0, 0], [0, 0], [0, 0], (), true⟩ 0 1 1 0).2.1 % 2 ^ 1 =
        (naiveLoop (fun (x : ℚ) (u : Unit) => (x, u)) (1 / 2) [1, 0] (2 ^ 1)
          ⟨[0, 0], [0, 0], [0, 0], (), true⟩ 0 1 1 0 2).2.1 % 2 ^ 1 :=
  C5_subchunked_eq_naive (fun x u => (x, u)) (1 / 2) [1, 0] 1 2
    ⟨[0, 0], [0, 0], [0, 0], (), true⟩ 0 1 1 (by norm_num)

/-- C6: update computes tap0Offset = max(round(Delay·rate), 1) and
tap1Offset = round(LRDelay·rate) + tap0Offset, where round is
round-to-nearest (std::round; for the non-negative delay inputs half-up). -/
theorem C6_tap_formula (fsqrt : ℚ → ℚ) (CalcAmbiCoeffs : ℚ → ℚ → ℚ → ℚ → List ℚ)
    (ComputePanGains : ℕ → List ℚ → ℚ → List ℚ) (sampleRate : ℕ) (slotGain : ℚ)
    (targetMain : ℕ) (props : EchoProps) (st : EchoState)
    (hd : 0 ≤ props.Delay) (hlr : 0 ≤ props.LRDelay) :
    (EchoState.update fsqrt CalcAmbiCoeffs ComputePanGains sampleRate slotGain targetMain
        props st).mDelayTap.1 = max (round (props.Delay * (sampleRate : ℚ))).toNat 1 ∧
      (EchoState.update fsqrt CalcAmbiCoeffs ComputePanGains sampleRate slotGain targetMain
          props st).mDelayTap.2 =
        (round (props.LRDelay * (sampleRate : ℚ))).toNat +
          (EchoState.update fsqrt CalcAmbiCoeffs ComputePanGains sampleRate slotGain
            targetMain props st).mDelayTap.1 := by
  rw [update_delayTap]
  rw [float2uint_roundQ _ (mul_nonneg hd (Nat.cast_nonneg _)),
    float2uint_roundQ _ (mul_nonneg hlr (Nat.cast_nonneg _))]
  exact ⟨rfl, rfl⟩

/-- C6 witness: the tap formulas at Delay = 1/4, LRDelay = 1/2, rate 8
(offsets 2 and 6). -/
theorem C6_witness :
    (EchoState.update (fun _ => 0) (fun _ _ _ _ => []) (fun _ _ _ => []) 8 1 0
        ⟨1 / 4, 1 / 2, 0, 0, 0⟩ (exState [] (0, 0) 0)).mDelayTap.1 =
        max (round ((1 / 4 : ℚ) * ((8 : ℕ) : ℚ))).toNat 1 ∧
      (EchoState.update (fun _ => 0) (fun _ _ _ _ => []) (fun _ _ _ => []) 8 1 0
          ⟨1 / 4, 1 / 2, 0, 0, 0⟩ (exState [] (0, 0) 0)).mDelayTap.2 =
        (round ((1 / 2 : ℚ) * ((8 : ℕ) : ℚ))).toNat +
          (EchoState.update (fun _ => 0) (fun _ _ _ _ => []) (fun _ _ _ => []) 8 1 0
            ⟨1 / 4, 1 / 2, 0, 0, 0⟩ (exState [] (0, 0) 0)).mDelayTap.1 :=
  C6_tap_formula _ _ _ 8 1 0 ⟨1 / 4, 1 / 2, 0, 0, 0⟩ (exState [] (0, 0) 0)
    (by norm_num) (by norm_num)

/-- C7: for every damping d in [0,1], update sets the feedback filter's
shelf gain to max(1 − d, 1/16) (0.0625 = 1/16 exactly); damping 1 yields
exactly 1/16, and the gain is never below 1/16. -/
theorem C7_damping_gain (fsqrt : ℚ → ℚ) (CalcAmbiCoeffs : ℚ → ℚ → ℚ → ℚ → List ℚ)
    (ComputePanGains : ℕ → List ℚ → ℚ → List ℚ) (sampleRate : ℕ) (slotGain : ℚ)
    (targetMain : ℕ) (props : EchoProps) (st : EchoState)
    (h0 : 0 ≤ props.Damping) (h1 : props.Damping ≤ 1) :
    (EchoState.update fsqrt CalcAmbiCoeffs ComputePanGains sampleRate slotGain targetMain
        props st).mFilter.gainhf = max (1 - props.Damping) (1 / 16) ∧
      (props.Damping = 1 →
        (EchoState.update fsqrt CalcAmbiCoeffs ComputePanGains sampleRate slotGain
          targetMain props st).mFilter.gainhf = 1 / 16) ∧
      (1 / 16 : ℚ) ≤ (EchoState.update fsqrt CalcAmbiCoeffs ComputePanGains sampleRate
        slotGain targetMain props st).mFilter.gainhf := by
  have hg : (EchoState.update fsqrt CalcAmbiCoeffs ComputePanGains sampleRate slotGain
      targetMain props st).mFilter.gainhf = max (1 - props.Damping) (1 / 16) := rfl
  refine ⟨hg, fun hD => ?_, ?_⟩
  · rw [hg, hD]
    have h11 : (1 : ℚ) - 1 = 0 := by norm_num
    rw [h11]
    exact max_eq_right (by norm_num)
  · rw [hg]
    exact le_max_right _ _

/-- C7 witness: damping exactly 1 yields shelf gain exactly 1/16. -/
theorem C7_witness :
    (EchoState.update (fun _ => 0) (fun _ _ _ _ => []) (fun _ _ _ => []) 44100 1 0
        ⟨0, 0, 1, 0, 0⟩ (exState [] (0, 0) 0)).mFilter.gainhf =
        max (1 - (1 : ℚ)) (1 / 16) ∧
      ((1 : ℚ) = 1 →
        (EchoState.update (fun _ => 0) (fun _ _ _ _ => []) (fun _ _ _ => []) 44100 1 0
          ⟨0, 0, 1, 0, 0⟩ (exState [] (0, 0) 0)).mFilter.gainhf = 1 / 16) ∧
      (1 / 16 : ℚ) ≤ (EchoState.update (fun _ => 0) (fun _ _ _ _ => []) (fun _ _ _ => [])
        44100 1 0 ⟨0, 0, 1, 0, 0⟩ (exState [] (0, 0) 0)).mFilter.gainhf :=
  C7_damping_gain _ _ _ 44100 1 0 ⟨0, 0, 1, 0, 0⟩ (exState [] (0, 0) 0)
    (by norm_num) (by norm_num)

/-- C8: update leaves the delay buffer, the write cursor, both taps' Current
gain vectors, the feedback filter's running state (z1, z2) and the temp
buffers unchanged — it mutates only tap offsets, filter response
parameters, feedback gain, output target and the taps' Target vectors. -/
theorem C8_update_preserves (fsqrt : ℚ → ℚ) (CalcAmbiCoeffs : ℚ → ℚ → ℚ → ℚ → List ℚ)
    (ComputePanGains : ℕ → List ℚ → ℚ → List ℚ) (sampleRate : ℕ) (slotGain : ℚ)
    (targetMain : ℕ) (props : EchoProps) (st : EchoState) :
    (EchoState.update fsqrt CalcAmbiCoeffs ComputePanGains sampleRate slotGain targetMain
        props st).mSampleBuffer = st.mSampleBuffer ∧
      (EchoState.update fsqrt CalcAmbiCoeffs ComputePanGains sampleRate slotGain targetMain
        props st).mOffset = st.mOffset ∧
      (EchoState.update fsqrt CalcAmbiCoeffs ComputePanGains sampleRate slotGain targetMain
        props st).mGains.1.Current = st.mGains.1.Current ∧
      (EchoState.update fsqrt CalcAmbiCoeffs ComputePanGains sampleRate slotGain targetMain
        props st).mGains.2.Current = st.mGains.2.Current ∧
      (EchoState.update fsqrt CalcAmbiCoeffs ComputePanGains sampleRate slotGain targetMain
        props st).mFilter.z1 = st.mFilter.z1 ∧
      (EchoState.update fsqrt CalcAmbiCoeffs ComputePanGains sampleRate slotGain targetMain
        props st).mFilter.z2 = st.mFilter.z2 ∧
      (EchoState.update fsqrt CalcAmbiCoeffs ComputePanGains sampleRate slotGain targetMain
        props st).mTempBuffer = st.mTempBuffer :=
  ⟨rfl, rfl, rfl, rfl, rfl, rfl, rfl⟩

/-- C9: after every deviceUpdate call that (re)allocates the buffer, the
delay buffer contains only zeros and both taps' Current gain vectors are
all zero. -/
theorem C9_realloc_zeroes (D LR : ℚ) (rate : ℕ) (st : EchoState)
    (h : (EchoState.deviceUpdate D LR rate st).2 = true) :
    ((EchoState.deviceUpdate D LR rate st).1).mSampleBuffer =
        List.replicate ((EchoState.deviceUpdate D LR rate st).1).mSampleBuffer.length
          (0 : ℚ) ∧
      ((EchoState.deviceUpdate D LR rate st).1).mGains.1.Current =
        List.replicate MaxAmbiChannels (0 : ℚ) ∧
      ((EchoState.deviceUpdate D LR rate st).1).mGains.2.Current =
        List.replicate MaxAmbiChannels (0 : ℚ) := by
  refine ⟨?_, rfl, rfl⟩
  simp [EchoState.deviceUpdate]

/-- C9 witness: a reallocating deviceUpdate (empty buffer grown to length 8)
leaves an all-zero buffer and zero Current gains. -/
theorem C9_witness :
    ((EchoState.deviceUpdate 1 1 3 (exState [] (0, 0) 0)).1).mSampleBuffer =
        List.replicate
          ((EchoState.deviceUpdate 1 1 3 (exState [] (0, 0) 0)).1).mSampleBuffer.length
          (0 : ℚ) ∧
      ((EchoState.deviceUpdate 1 1 3 (exState [] (0, 0) 0)).1).mGains.1.Current =
        List.replicate MaxAmbiChannels (0 : ℚ) ∧
      ((EchoState.deviceUpdate 1 1 3 (exState [] (0, 0) 0)).1).mGains.2.Current =
        List.replicate MaxAmbiChannels (0 : ℚ) :=
  C9_realloc_zeroes 1 1 3 (exState [] (0, 0) 0) (by with_unfolding_all decide)

/-- C10: every deviceUpdate call value-initializes the entire per-tap gain
state: both taps' Target vectors are reset to zero along with the Current
vectors, so the effect contributes silence until the next update. -/
theorem C10_targets_zero (D LR : ℚ) (rate : ℕ) (st : EchoState) :
    ((EchoState.deviceUpdate D LR rate st).1).mGains = (OutGains.init, OutGains.init) ∧
      OutGains.init.Target = List.replicate MaxAmbiChannels (0 : ℚ) ∧
      OutGains.init.Current = List.replicate MaxAmbiChannels (0 : ℚ) :=
  ⟨rfl, rfl, rfl⟩

end Echo
